import Mathlib

/-!
Verification of the flask-reqcheck request-validation core.

The development shallowly embeds the Python sources of the repository:

* `validation_utils.py` — the multi-value extractor and the content-type /
  body-presence predicates;
* `request_validation.py` — `PathParameterValidator`,
  `QueryParameterValidator`, `BodyDataValidator`, `FormDataValidator`,
  `create_dynamic_model` and `as_model`;
* `decorators.py` — the orchestration decorator `validate` and the
  single-surface decorators `validate_path` and `validate_form`;
* `decoration.py` — the legacy orchestration wrapper and its helpers.

Python dictionaries are embedded as ordered association lists, machine
values as the inductive `Val`, Python type objects as `Ty`, pydantic lax
coercion as `coerce`, and fallible code returns `Except Failure`.
-/

set_option autoImplicit false

namespace Reqcheck

/-- Embedded Python/JSON values: the value universe the validators touch
(router-bound path segments, query strings, parsed JSON bodies). -/
inductive Val where
  | str (s : String)
  | int (n : Int)
  | bool (b : Bool)
  | list (xs : List Val)
  | obj (fields : List (String × Val))
  | none
deriving Repr

/-- Embedded Python runtime types, the codomain of `type(value)` and the
targets of pydantic `TypeAdapter` coercion. -/
inductive Ty where
  | tStr
  | tInt
  | tBool
  | tList
  | tDict
  | tNone
deriving Repr, DecidableEq

/-- Python `type(value)` on the embedded value universe. -/
def typeOf : Val → Ty
  | .str _ => .tStr
  | .int _ => .tInt
  | .bool _ => .tBool
  | .list _ => .tList
  | .obj _ => .tDict
  | .none => .tNone

/-- Decimal digit lookup for the integer-string parser. -/
def charDigit? (c : Char) : Option Nat :=
  if c = '0' then some 0 else if c = '1' then some 1 else if c = '2' then some 2
  else if c = '3' then some 3 else if c = '4' then some 4 else if c = '5' then some 5
  else if c = '6' then some 6 else if c = '7' then some 7 else if c = '8' then some 8
  else if c = '9' then some 9 else Option.none

/-- Accumulating decimal parser over the characters of a string. -/
def digitsToNat : List Char → Nat → Option Nat
  | [], acc => some acc
  | c :: cs, acc =>
    match charDigit? c with
    | some d => digitsToNat cs (acc * 10 + d)
    | Option.none => Option.none

/-- Integer parsing of a string as pydantic's lax `int` coercion performs
it: an optional leading minus sign followed by at least one decimal
digit. -/
def parseInt? (s : String) : Option Int :=
  match s.data with
  | [] => Option.none
  | '-' :: cs =>
    match cs with
    | [] => Option.none
    | _ => (digitsToNat cs 0).map (fun n => -(n : Int))
  | cs => (digitsToNat cs 0).map (fun n => (n : Int))

/-- Pydantic lax-mode coercion, `TypeAdapter(t).validate_python(v)`:
`some w` is the coerced value, `none` a validation failure.  Strings coerce
to `int` by integer parsing and to `bool` through the pydantic boolean
string set; no value coerces to `str` other than a string itself. -/
def coerce : Ty → Val → Option Val
  | .tStr, .str s => some (.str s)
  | .tStr, _ => none
  | .tInt, .int n => some (.int n)
  | .tInt, .bool b => some (.int (if b then 1 else 0))
  | .tInt, .str s =>
    match parseInt? s with
    | some n => some (.int n)
    | Option.none => none
  | .tInt, _ => none
  | .tBool, .bool b => some (.bool b)
  | .tBool, .int n =>
    if n = 0 then some (.bool false) else if n = 1 then some (.bool true) else none
  | .tBool, .str s =>
    if s ∈ ["true", "True", "1", "yes", "on"] then some (.bool true)
    else if s ∈ ["false", "False", "0", "no", "off"] then some (.bool false)
    else none
  | .tBool, _ => none
  | .tList, .list xs => some (.list xs)
  | .tList, _ => none
  | .tDict, .obj l => some (.obj l)
  | .tDict, _ => none
  | .tNone, .none => some .none
  | .tNone, _ => none

/-- Python truthiness (`if value:`) on the embedded value universe. -/
def pyTruthy : Val → Bool
  | .str s => s ≠ ""
  | .int n => n ≠ 0
  | .bool b => b
  | .list xs => !xs.isEmpty
  | .obj l => !l.isEmpty
  | .none => false

/-- An embedded Python `dict` keyed by strings, in insertion order. -/
abbrev DictV := List (String × Val)

/-- Python `d.get(k)` / `k in d` lookup on an embedded dict. -/
def dictLookup : DictV → String → Option Val
  | [], _ => Option.none
  | (a, v) :: rest, k => if a = k then some v else dictLookup rest k

/-- Lookup in the handler's annotation table (`getfullargspec(f).annotations`). -/
def hintLookup : List (String × Ty) → String → Option Ty
  | [], _ => Option.none
  | (a, t) :: rest, k => if a = k then some t else hintLookup rest k

/-- The ways embedded code can fail, mirroring the exceptions the source
raises: `abort code description` for `flask.abort`, `validationError loc msg`
for a pydantic `ValidationError` (with the field name in `loc` when the
error carries one), `valueError` for a Python `ValueError` and `typeError`
for a Python `TypeError`. -/
inductive Failure where
  | abort (code : Nat) (description : String)
  | validationError (loc : Option String) (msg : String)
  | valueError (msg : String)
  | typeError (msg : String)
deriving Repr

/-- The warning-capable results of a validator: the value (or failure)
paired with whether `current_app.logger.warning` was called. -/
abbrev WarnResult (α : Type) := Except Failure α × Bool

/-! ## Multi-value extraction (`validation_utils._extract_multi_to_dict`) -/

/-- Embeds `validation_utils._extract_multi_to_dict`: collapse each
`(key, values)` pair of a multi-dict to `values[0]` when `len(values) == 1`
and keep the whole list otherwise.  `QueryParameterValidator.
extract_query_params_as_dict` in `request_validation.py` is the same
comprehension applied to `request.args.lists()`. -/
def _extract_multi_to_dict (data : List (String × List Val)) : DictV :=
  data.map fun kv => (kv.1, if kv.2.length = 1 then kv.2.headD Val.none else Val.list kv.2)

/-- Python `len(v)` for the duck-typed re-application of the extraction
rule to an already-flat mapping: defined on strings and sequences,
a `TypeError` (`none`) otherwise. -/
def pyLen : Val → Option Nat
  | .str s => some s.data.length
  | .list xs => some xs.length
  | .obj l => some l.length
  | _ => Option.none

/-- Python `v[0]` for the duck-typed re-application of the extraction rule:
the one-character head string for a string, the head for a list. -/
def pyGetZero : Val → Option Val
  | .str s => if s.data.isEmpty then Option.none else some (.str (String.mk (s.data.take 1)))
  | .list xs => xs.head?
  | _ => Option.none

/-- The extraction rule of `_extract_multi_to_dict` applied a second time,
to a flat mapping whose values are arbitrary embedded values (as Python
would evaluate `values[0] if len(values) == 1 else values` on them). -/
def extractAgain : DictV → Except Failure DictV
  | [] => .ok []
  | (k, v) :: rest => do
    let entry ←
      match pyLen v with
      | Option.none => Except.error (.typeError "object has no len")
      | some n =>
        if n = 1 then
          match pyGetZero v with
          | some w => Except.ok (k, w)
          | Option.none => Except.error (.typeError "object is not subscriptable")
        else
          Except.ok (k, v)
    let rest' ← extractAgain rest
    .ok (entry :: rest')

/-! ## Schemas and `as_model` -/

/-- One declared field of an explicit pydantic model: its name, target
type, whether it is required, and its default when optional. -/
structure Field where
  name : String
  ty : Ty
  required : Bool
  dflt : Val
deriving Repr

/-- An explicit pydantic model: its fields in declaration order. -/
abbrev Schema := List Field

/-- Pydantic `model(**data)` field processing: each declared field is
looked up in the data, coerced laxly to its declared type (failure is a
`ValidationError` locating the field), with missing required fields
rejected and missing optional fields filled from the default. -/
def validateFields (data : DictV) : Schema → Except Failure DictV
  | [] => .ok []
  | f :: rest =>
    match dictLookup data f.name with
    | some v =>
      match coerce f.ty v with
      | some w => (validateFields data rest).map (fun r => (f.name, w) :: r)
      | Option.none => .error (.validationError (some f.name) "type_error")
    | Option.none =>
      if f.required then .error (.validationError (some f.name) "missing")
      else (validateFields data rest).map (fun r => (f.name, f.dflt) :: r)

/-- Embeds `as_model(data, model)` from `request_validation.py` (the
identical helper also appears in `decoration.py`): `None` when no model is
supplied, otherwise `model(**data)` with a pydantic failure turned into
`abort(400, ...)`; here the structured per-field payload is kept in the
`validationError` constructor. -/
def as_model (data : DictV) (model : Option Schema) : Except Failure (Option DictV) :=
  match model with
  | Option.none => .ok Option.none
  | some flds => (validateFields data flds).map some

/-- The same call with a parsed JSON payload in argument position:
`model(**data)` requires a mapping, so a non-object payload is a
`TypeError` when a model is present, and no model short-circuits to `None`
before the payload is touched. -/
def as_model_val (data : Val) (model : Option Schema) : Except Failure (Option DictV) :=
  match model with
  | Option.none => .ok Option.none
  | some flds =>
    match data with
    | .obj l => (validateFields l flds).map some
    | _ => .error (.typeError "argument of type mapping required")

/-! ## Path parameter validation (`PathParameterValidator`) -/

/-- Embeds `PathParameterValidator.get_target_type`: the declared hint for
the argument name, defaulting to `type(value)` when no hint exists. -/
def get_target_type (arg : String) (value : Val) (function_arg_types : List (String × Ty)) : Ty :=
  (hintLookup function_arg_types arg).getD (typeOf value)

/-- Embeds `PathParameterValidator.validate_value`:
`TypeAdapter(target_type).validate_python(value)`.  The raise site receives
only the value and the target type, so the `ValidationError` it produces
carries no field name (`loc` is `none`). -/
def validate_value (value : Val) (target_type : Ty) : Except Failure Val :=
  match coerce target_type value with
  | some w => .ok w
  | Option.none => .error (.validationError Option.none "coercion_failure")

/-- Embeds `PathParameterValidator.validate_path_params`: iterate the bound
path parameters in order, coerce each against its target type, and collect
the per-field results; the first coercion failure propagates. -/
def validate_path_params (path_params : DictV) (function_arg_types : List (String × Ty)) :
    Except Failure DictV :=
  match path_params with
  | [] => .ok []
  | (arg, value) :: rest =>
    match validate_value value (get_target_type arg value function_arg_types) with
    | .error e => .error e
    | .ok w =>
      match validate_path_params rest function_arg_types with
      | .error e => .error e
      | .ok r => .ok ((arg, w) :: r)

/-- Embeds `create_dynamic_model`: the synthesized ad-hoc model whose
fields are `(arg, type(val))` for each validated value, all required. -/
def create_dynamic_model (kwargs : DictV) : Schema :=
  kwargs.map fun p => ⟨p.1, typeOf p.2, true, Val.none⟩

/-- Embeds `PathParameterValidator.validate_from_declaration`: per-field
validation, then `model_validate` of the result against the explicit model
if one exists, else against the synthesized dynamic model.  Returns both
the model used and the validated instance. -/
def validate_from_declaration (path_params : DictV) (function_arg_types : List (String × Ty))
    (model : Option Schema) : Except Failure (Schema × DictV) :=
  match validate_path_params path_params function_arg_types with
  | .error e => .error e
  | .ok validated =>
    match validateFields validated (model.getD (create_dynamic_model validated)) with
    | .error e => .error e
    | .ok inst => .ok (model.getD (create_dynamic_model validated), inst)

/-- Embeds `PathParameterValidator.validate`: no bound path parameters
yields `None`; with an explicit model the raw mapping is validated against
it directly (`validate_from_model`, that is `as_model`); otherwise the
declaration fallback runs. -/
def pathValidatorValidate (path_params : DictV) (model : Option Schema)
    (function_arg_types : List (String × Ty)) : Except Failure (Option DictV) :=
  if path_params.isEmpty then .ok Option.none
  else
    match model with
    | some _ => as_model path_params model
    | Option.none =>
      (validate_from_declaration path_params function_arg_types Option.none).map
        (fun x => some x.2)

/-! ## The embedded request and the remaining per-surface validators -/

/-- The in-memory view of one inbound request as the validators see it:
the router-bound path values (`request.view_args`, empty when absent), the
raw query pairs (`request.args.lists()`), the form fields (`request.form`),
the two body-signaling headers, the Content-Type header, and the outcome
of `request.get_json()` (which can itself fail with a parse or
content-type error). -/
structure Request where
  viewArgs : DictV
  queryLists : List (String × List Val)
  form : DictV
  hasContentLength : Bool
  hasTransferEncoding : Bool
  contentType : Option String
  jsonBody : Except Failure Val

/-- Embeds `request_has_body` (`validation_utils.py`, identically in
`request_validation.py` and `decoration.py`): a Content-Length or
Transfer-Encoding header signals a body. -/
def request_has_body (r : Request) : Bool :=
  r.hasTransferEncoding || r.hasContentLength

/-- Embeds `validation_utils.request_is_form`: exact membership of the
Content-Type header value in the two form encodings (a missing header is
not a member). -/
def request_is_form (r : Request) : Bool :=
  match r.contentType with
  | some ct => ct = "application/x-www-form-urlencoded" || ct = "multipart/form-data"
  | Option.none => false

/-- Embeds `extract_query_params_as_dict` (`validation_utils.py`), the
multi-value extractor applied to `request.args.lists()`. -/
def extract_query_params_as_dict (r : Request) : DictV :=
  _extract_multi_to_dict r.queryLists

/-- Embeds `QueryParameterValidator.validate` from `request_validation.py`
(the two-argument revision receives the extracted dict directly, with the
same logic): empty query data returns `None` at once; data without a model
logs a warning (the Boolean) and returns `None`; data with a model is
passed to `as_model` in one call. -/
def queryValidatorValidate (model : Option Schema) (query_params : DictV) :
    WarnResult (Option DictV) :=
  if query_params.isEmpty then (.ok Option.none, false)
  else
    match model with
    | Option.none => (.ok Option.none, true)
    | some _ => (as_model query_params model, false)

/-- Embeds `BodyDataValidator.validate` from `request_validation.py`
(`decoration.validate_body` is line for line the same logic): no body
signal or form data already present yields `None`; then `get_json` runs;
a truthy payload without a model aborts with 400 "Unexpected data was
provided"; otherwise `as_model` decides. -/
def bodyValidatorValidate (r : Request) (model : Option Schema) :
    Except Failure (Option DictV) :=
  if !request_has_body r || !r.form.isEmpty then .ok Option.none
  else do
    let request_body ← r.jsonBody
    if pyTruthy request_body && model.isNone then
      .error (.abort 400 "Unexpected data was provided")
    else
      as_model_val request_body model

/-- Embeds `FormDataValidator.validate`: `as_model(request.form, model)`,
with the form mapping passed in. -/
def formValidatorValidate (form : DictV) (model : Option Schema) :
    Except Failure (Option DictV) :=
  as_model form model

/-! ## Orchestration (`decorators.py`) -/

/-- Which per-surface validators a wrapper invocation actually ran. -/
inductive Surface where
  | path
  | query
  | body
  | form
deriving Repr, DecidableEq

/-- The `ValidRequest` fields the orchestration wrapper populates (the
`headers` and `cookies` slots of `valid_request.py` stay reserved). -/
structure VOut where
  path_params : Option DictV
  query_params : Option DictV
  body : Option DictV
  form : Option DictV
deriving Repr

/-- Modelled from the spec: the two-argument `BodyDataValidator` revision
constructed by `decorators.py` (its class body is not under `src/`; only
this call site is).  Per the §4.3 contract it behaves as the one-argument
revision in `request_validation.py` with the parsed payload supplied by
the caller: absent body or consumed form data yields an absent result, a
truthy payload without a schema is the "unexpected data" 400, and
otherwise the model validates the payload. -/
def bodyValidator2Validate (r : Request) (model : Option Schema) (request_body : Val) :
    Except Failure (Option DictV) :=
  if !request_has_body r || !r.form.isEmpty then .ok Option.none
  else if pyTruthy request_body && model.isNone then
    .error (.abort 400 "Unexpected data was provided")
  else
    as_model_val request_body model

/-- The path step of the `decorators.validate` wrapper: only when
`request.view_args` is truthy does the path validator run. -/
def stepPath (r : Request) (path_model : Option Schema) (fun_args : List (String × Ty)) :
    List Surface × Except Failure (Option DictV) :=
  if r.viewArgs.isEmpty then ([], .ok Option.none)
  else ([.path], pathValidatorValidate r.viewArgs path_model fun_args)

/-- The query step of the `decorators.validate` wrapper: only when a query
model was declared does the query validator run. -/
def stepQuery (r : Request) (query_model : Option Schema) :
    List Surface × Except Failure (Option DictV) :=
  match query_model with
  | Option.none => ([], .ok Option.none)
  | some _ =>
    ([.query], (queryValidatorValidate query_model (extract_query_params_as_dict r)).1)

/-- The body/form step of the `decorators.validate` wrapper: a declared
body model takes the body branch (`request.get_json()` then the body
validator); otherwise a declared form model first checks `request_is_form`
and aborts 415 on mismatch before the form validator runs; with neither
model the step is a no-op. -/
def stepBodyForm (r : Request) (body_model form_model : Option Schema) :
    List Surface × Except Failure (Option DictV × Option DictV) :=
  match body_model with
  | some _ =>
    ([.body],
      match r.jsonBody with
      | .error e => .error e
      | .ok request_body =>
        match bodyValidator2Validate r body_model request_body with
        | .error e => .error e
        | .ok b => .ok (b, Option.none))
  | Option.none =>
    match form_model with
    | some _ =>
      if !request_is_form r then ([], .error (.abort 415 "Unsupported Media Type"))
      else ([.form], (formValidatorValidate r.form form_model).map (fun f => (Option.none, f)))
    | Option.none => ([], .ok (Option.none, Option.none))

/-- Embeds the wrapper of `decorators.validate`: path step, then query
step, then the mutually exclusive body/form step, each failure unwinding
immediately past the rest; alongside the populated result the trace lists
the validators that ran, in order. -/
def decoratorsValidateWrapper (r : Request) (body_model query_model path_model form_model : Option Schema)
    (fun_args : List (String × Ty)) : List Surface × Except Failure VOut :=
  let (t1, pr) := stepPath r path_model fun_args
  match pr with
  | .error e => (t1, .error e)
  | .ok p =>
    let (t2, qr) := stepQuery r query_model
    match qr with
    | .error e => (t1 ++ t2, .error e)
    | .ok q =>
      let (t3, bfr) := stepBodyForm r body_model form_model
      match bfr with
      | .error e => (t1 ++ t2 ++ t3, .error e)
      | .ok (b, f) => (t1 ++ t2 ++ t3, .ok ⟨p, q, b, f⟩)

/-- Embeds the wrapper of `decorators.validate_path`: falsy
`request.view_args` raises `ValueError("Expected path parameters but none
were found.")` before any validator is constructed; otherwise the path
validator runs. -/
def decoratorsValidatePathWrapper (r : Request) (path_model : Option Schema)
    (fun_args : List (String × Ty)) : Except Failure (Option DictV) :=
  if r.viewArgs.isEmpty then
    .error (.valueError "Expected path parameters but none were found.")
  else
    pathValidatorValidate r.viewArgs path_model fun_args

/-- Embeds the wrapper of `decorators.validate_form`: a Content-Type not in
the exact form-encoding list aborts 415 before the form validator runs
(trace empty); otherwise the form validator validates `request.form`. -/
def decoratorsValidateFormWrapper (r : Request) (form_model : Schema) :
    List Surface × Except Failure (Option DictV) :=
  if !request_is_form r then ([], .error (.abort 415 "Unsupported Media Type"))
  else ([.form], formValidatorValidate r.form (some form_model))

/-! ## The legacy orchestration wrapper (`decoration.py`) -/

/-- Embeds `decoration.validate_query_params`: validation happens only when
query data is present and a model was declared; every other combination
falls through to the warning and an absent result. -/
def decorationValidateQueryParams (query_model : Option Schema) (query_params : DictV) :
    WarnResult (Option DictV) :=
  if !query_params.isEmpty && query_model.isSome then
    (as_model query_params query_model, false)
  else
    (.ok Option.none, true)

/-- Embeds the wrapper of `decoration.validate`: path, query, body and form
helpers all run unconditionally in sequence (`decoration.
validate_path_params` and `decoration.validate_body` repeat the logic of
the class-based validators; `decoration.validate_form_data` is
`as_model(request.form, form_model)`). -/
def decorationValidateWrapper (r : Request) (body_model query_model path_model form_model : Option Schema)
    (fun_args : List (String × Ty)) : Except Failure VOut := do
  let p ← pathValidatorValidate r.viewArgs path_model fun_args
  let q ← (decorationValidateQueryParams query_model (extract_query_params_as_dict r)).1
  let b ← bodyValidatorValidate r body_model
  let f ← formValidatorValidate r.form form_model
  .ok ⟨p, q, b, f⟩

/-! ## A store of dictionaries, for the frame property

To state that validation never mutates the raw mapping it is given, the
dict objects are given addresses in a store and every dictionary operation
the source performs is played against the store: reads from the raw dict,
allocation of the fresh `validated_path_params` dict, and the per-key
assignments into it. -/

/-- Python `d[k] = v`: replace the value at an existing key, append a new
key at the end. -/
def dictSet : DictV → String → Val → DictV
  | [], k, v => [(k, v)]
  | (a, w) :: rest, k, v =>
    if a = k then (a, v) :: rest else (a, w) :: dictSet rest k v

/-- Read an address in the store memory (absent addresses read as empty,
never exercised under the freshness hypotheses). -/
def memRead : List (Nat × DictV) → Nat → DictV
  | [], _ => []
  | (a, d) :: rest, b => if a = b then d else memRead rest b

/-- Overwrite an address in the store memory (an absent address is
appended, which the validators' runs never exercise: they write only to
the freshly allocated output dict). -/
def memWrite : List (Nat × DictV) → Nat → DictV → List (Nat × DictV)
  | [], b, nd => [(b, nd)]
  | (a, d) :: rest, b, nd =>
    if a = b then (a, nd) :: rest else (a, d) :: memWrite rest b nd

/-- A store of dict objects: the memory and the next fresh address. -/
structure Store where
  mem : List (Nat × DictV)
  next : Nat

/-- Dereference an address. -/
def Store.read (σ : Store) (a : Nat) : DictV := memRead σ.mem a

/-- Mutate the dict at an address in place. -/
def Store.write (σ : Store) (a : Nat) (d : DictV) : Store := ⟨memWrite σ.mem a d, σ.next⟩

/-- Allocate a new dict object, returning its address. -/
def Store.alloc (σ : Store) (d : DictV) : Nat × Store :=
  (σ.next, ⟨(σ.next, d) :: σ.mem, σ.next + 1⟩)

/-- The loop body of `validate_path_params` played against the store: each
validated value is assigned into the freshly allocated output dict; the
input entries are only read. -/
def vppLoop (fun_args : List (String × Ty)) (outAddr : Nat) :
    List (String × Val) → Store → Except Failure Unit × Store
  | [], σ => (.ok (), σ)
  | (arg, value) :: rest, σ =>
    match validate_value value (get_target_type arg value fun_args) with
    | .ok w => vppLoop fun_args outAddr rest (σ.write outAddr (dictSet (σ.read outAddr) arg w))
    | .error e => (.error e, σ)

/-- `PathParameterValidator.validate_path_params` against the store: read
the raw mapping at `ppAddr`, allocate `validated_path_params` as a fresh
empty dict, run the loop, and return the address of the new dict. -/
def validate_path_params_heap (σ : Store) (ppAddr : Nat) (fun_args : List (String × Ty)) :
    Except Failure Nat × Store :=
  let pp := σ.read ppAddr
  let (outAddr, σ1) := σ.alloc []
  match vppLoop fun_args outAddr pp σ1 with
  | (.ok _, σ2) => (.ok outAddr, σ2)
  | (.error e, σ2) => (.error e, σ2)

/-- `as_model` against the store: `model(**data)` reads the raw mapping at
`dataAddr` and on success allocates the model instance as a new object;
nothing is ever written at an existing address. -/
def as_model_heap (σ : Store) (dataAddr : Nat) (model : Option Schema) :
    Except Failure (Option Nat) × Store :=
  match model with
  | Option.none => (.ok Option.none, σ)
  | some flds =>
    match validateFields (σ.read dataAddr) flds with
    | .ok inst =>
      let (a, σ1) := σ.alloc inst
      (.ok (some a), σ1)
    | .error e => (.error e, σ)

/-! ## Helper lemmas -/

/-- Coercing a value to its own runtime type is the identity, so a path
parameter with no declared hint keeps the router-provided value. -/
theorem coerce_typeOf_self (v : Val) : coerce (typeOf v) v = some v := by
  cases v <;> rfl

/-- A successful lax coercion produces a value of the target type. -/
theorem typeOf_coerce {t : Ty} {v w : Val} (h : coerce t v = some w) : typeOf w = t := by
  cases t <;> cases v <;>
    simp only [coerce] at h <;>
    (try split at h) <;>
    (try split at h) <;>
    first
      | (cases h; rfl)
      | exact Option.noConfusion h

/-! ## C2 — the multi-value extractor collapses singletons and keeps
multi-valued keys in order -/

/-- C2.  For every ordered collection of (key, list-of-values) pairs the
extractor keeps the length and order; a key whose list has exactly one
element maps to that element as a scalar, and a key whose list has two or
more elements maps to the list of all its values unchanged. -/
theorem c2_multi_value_extractor (data : List (String × List Val)) (i : Nat)
    (k : String) (vs : List Val) (h : data[i]? = some (k, vs)) :
    (_extract_multi_to_dict data).length = data.length ∧
    (∀ v, vs = [v] → (_extract_multi_to_dict data)[i]? = some (k, v)) ∧
    (2 ≤ vs.length → (_extract_multi_to_dict data)[i]? = some (k, Val.list vs)) := by
  refine ⟨List.length_map _ _, ?_, ?_⟩
  · intro v hv
    subst hv
    rw [_extract_multi_to_dict, List.getElem?_map, h]
    rfl
  · intro h2
    have hne : vs.length ≠ 1 := by omega
    rw [_extract_multi_to_dict, List.getElem?_map, h]
    simp [hne]

/-- Witness for C2 at the spec's example inputs. -/
theorem c2_multi_value_extractor_witness :
    (_extract_multi_to_dict [("x", [Val.str "1"]), ("y", [Val.str "a", Val.str "b"])])[0]?
        = some ("x", Val.str "1") ∧
    (_extract_multi_to_dict [("x", [Val.str "1"]), ("y", [Val.str "a", Val.str "b"])])[1]?
        = some ("y", Val.list [Val.str "a", Val.str "b"]) :=
  ⟨(c2_multi_value_extractor [("x", [Val.str "1"]), ("y", [Val.str "a", Val.str "b"])]
      0 "x" [Val.str "1"] rfl).2.1 _ rfl,
   (c2_multi_value_extractor [("x", [Val.str "1"]), ("y", [Val.str "a", Val.str "b"])]
      1 "y" [Val.str "a", Val.str "b"] rfl).2.2 (by decide)⟩

/-! ## C8 — idempotence of the extraction rule on flat singleton output -/

/-- C8.  A flat mapping produced by collapsing inputs whose keys each had
exactly one string value is a fixed point of the extraction rule: applying
the Python expression a second time to each entry leaves the mapping
unchanged. -/
theorem c8_extractor_idempotent (data : List (String × List Val))
    (h : ∀ p ∈ data, ∃ s : String, p.2 = [Val.str s]) :
    extractAgain (_extract_multi_to_dict data) = .ok (_extract_multi_to_dict data) := by
  induction data with
  | nil => rfl
  | cons hd tl ih =>
    obtain ⟨s, hs⟩ := h hd (List.mem_cons_self _ _)
    have htl := ih (fun p hp => h p (List.mem_cons_of_mem _ hp))
    obtain ⟨k, vs⟩ := hd
    simp only at hs
    subst hs
    show extractAgain ((k, Val.str s) :: _extract_multi_to_dict tl)
        = .ok ((k, Val.str s) :: _extract_multi_to_dict tl)
    obtain ⟨l⟩ := s
    cases l with
    | nil => unfold extractAgain; rw [htl]; rfl
    | cons c l' =>
      cases l' with
      | nil => unfold extractAgain; rw [htl]; rfl
      | cons d r => unfold extractAgain; rw [htl]; rfl

/-- Witness for C8 at the spec's example input. -/
theorem c8_extractor_idempotent_witness :
    extractAgain (_extract_multi_to_dict [("x", [Val.str "1"])])
        = .ok (_extract_multi_to_dict [("x", [Val.str "1"])]) :=
  c8_extractor_idempotent [("x", [Val.str "1"])]
    (fun p hp => by
      cases hp with
      | head => exact ⟨"1", rfl⟩
      | tail _ hq => cases hq)

/-! ## C3 and C10 — body present without a declared schema -/

/-- C3.  When a body is signaled, no form data consumed it, the JSON
payload parses and is non-empty (truthy), and no body schema was declared,
the body validator aborts with the 400 "Unexpected data was provided"
failure instead of discarding the payload. -/
theorem c3_unexpected_body (r : Request) (j : Val)
    (hb : request_has_body r = true) (hf : r.form = [])
    (hj : r.jsonBody = .ok j) (ht : pyTruthy j = true) :
    bodyValidatorValidate r Option.none
        = .error (.abort 400 "Unexpected data was provided") := by
  unfold bodyValidatorValidate
  rw [hb, hf]
  show (do
      let request_body ← r.jsonBody
      if pyTruthy request_body && (Option.none : Option Schema).isNone then
        Except.error (.abort 400 "Unexpected data was provided")
      else as_model_val request_body Option.none)
    = Except.error (.abort 400 "Unexpected data was provided")
  rw [hj]
  show (if pyTruthy j && true then Except.error (Failure.abort 400 "Unexpected data was provided")
      else as_model_val j Option.none) = _
  rw [ht]
  rfl

/-- Witness for C3: a request with a Content-Length header, no form data
and a non-empty JSON object, validated with no body model. -/
theorem c3_unexpected_body_witness :
    bodyValidatorValidate
        ⟨[], [], [], true, false, some "application/json", .ok (.obj [("a", Val.str "x")])⟩
        Option.none
      = .error (.abort 400 "Unexpected data was provided") :=
  c3_unexpected_body _ (.obj [("a", Val.str "x")]) rfl rfl rfl rfl

/-- C10.  With a body signaled, no form data, a parsed payload that is
empty or null (falsy), and no declared schema, the body validator returns
an absent result silently: the unexpected-data abort fires only for truthy
payloads. -/
theorem c10_empty_body_silent (r : Request) (j : Val)
    (hb : request_has_body r = true) (hf : r.form = [])
    (hj : r.jsonBody = .ok j) (ht : pyTruthy j = false) :
    bodyValidatorValidate r Option.none = .ok Option.none := by
  unfold bodyValidatorValidate
  rw [hb, hf]
  show (do
      let request_body ← r.jsonBody
      if pyTruthy request_body && (Option.none : Option Schema).isNone then
        Except.error (.abort 400 "Unexpected data was provided")
      else as_model_val request_body Option.none)
    = Except.ok Option.none
  rw [hj]
  show (if pyTruthy j && true then Except.error (Failure.abort 400 "Unexpected data was provided")
      else as_model_val j Option.none) = _
  rw [ht]
  rfl

/-- Witness for C10: same request shape as the C3 witness but with the
empty JSON object as payload. -/
theorem c10_empty_body_silent_witness :
    bodyValidatorValidate
        ⟨[], [], [], true, false, some "application/json", .ok (.obj [])⟩ Option.none
      = .ok Option.none :=
  c10_empty_body_silent _ (.obj []) rfl rfl rfl rfl

/-! ## C5 — query validation without a schema (corrected) -/

/-- C5 (amended).  The class-based query validator
(`QueryParameterValidator.validate`) with no declared schema returns an
absent result without failing and warns exactly when query data was
submitted; with a declared schema it hands the flat mapping to `as_model`
in one pass only when that mapping is non-empty — an empty mapping
short-circuits to an absent result without consulting the schema.  The
legacy helper `decoration.validate_query_params` validates only when both
query data and a schema are present; in every other case it returns an
absent result without failing and emits the warning — also when no query
data was submitted at all. -/
theorem c5_query_no_schema (model : Option Schema) (query_params : DictV) :
    ((queryValidatorValidate model query_params).2 = true ↔
        (query_params ≠ [] ∧ model = Option.none)) ∧
    (model = Option.none → (queryValidatorValidate model query_params).1 = .ok Option.none) ∧
    (query_params = [] → queryValidatorValidate model query_params = (.ok Option.none, false)) ∧
    (model.isSome = true → query_params ≠ [] →
        queryValidatorValidate model query_params = (as_model query_params model, false)) ∧
    ((decorationValidateQueryParams model query_params).2 = true ↔
        (query_params = [] ∨ model = Option.none)) ∧
    (model = Option.none →
        (decorationValidateQueryParams model query_params).1 = .ok Option.none) ∧
    (query_params = [] →
        (decorationValidateQueryParams model query_params).1 = .ok Option.none) ∧
    (model.isSome = true → query_params ≠ [] →
        decorationValidateQueryParams model query_params
          = (as_model query_params model, false)) := by
  unfold queryValidatorValidate decorationValidateQueryParams
  cases query_params with
  | nil =>
    cases model <;> simp
  | cons hd tl =>
    cases model with
    | none => simp
    | some s => simp

/-- Witness for C5: submitted query data with no declared schema triggers
the class validator's warning, and the legacy helper warns on a request
with no query data at all. -/
theorem c5_query_no_schema_witness :
    (queryValidatorValidate Option.none [("x", Val.str "1")]).2 = true ∧
    (decorationValidateQueryParams Option.none []).2 = true :=
  ⟨(c5_query_no_schema Option.none [("x", Val.str "1")]).1.mpr
      ⟨List.cons_ne_nil _ _, rfl⟩,
   (c5_query_no_schema Option.none []).2.2.2.2.1.mpr (Or.inl rfl)⟩

/-- Counterexample for C5 as frozen, on both cited sources: (i) with a
schema declared that requires field `x` and an empty submitted query
mapping, the class validator returns an absent result without validating,
although validating the flat mapping against that schema in one pass
would have failed with a missing-field error; (ii) the legacy
`decoration.validate_query_params` emits the warning although no query
data is present, against the claim's "no warning when no query data is
present". -/
theorem c5_empty_query_counterexample :
    (queryValidatorValidate (some [⟨"x", Ty.tStr, true, Val.none⟩]) []).1 = .ok Option.none ∧
    as_model [] (some [⟨"x", Ty.tStr, true, Val.none⟩])
        = .error (.validationError (some "x") "missing") ∧
    (decorationValidateQueryParams Option.none []).2 = true :=
  ⟨rfl, rfl, rfl⟩

/-! ## C6 — form validation requires a form content type -/

/-- C6.  Whenever the request's Content-Type is not one of the two form
encodings, the `validate_form` wrapper aborts with 415 before the form
validator runs: the trace is empty and the result does not depend on the
form fields or the schema. -/
theorem c6_form_content_type (r : Request) (form_model : Schema)
    (h1 : r.contentType ≠ some "application/x-www-form-urlencoded")
    (h2 : r.contentType ≠ some "multipart/form-data") :
    decoratorsValidateFormWrapper r form_model
      = ([], .error (.abort 415 "Unsupported Media Type")) := by
  have hform : request_is_form r = false := by
    unfold request_is_form
    cases hct : r.contentType with
    | none => rfl
    | some s =>
      have hs1 : s ≠ "application/x-www-form-urlencoded" := fun hh => h1 (by rw [hct, hh])
      have hs2 : s ≠ "multipart/form-data" := fun hh => h2 (by rw [hct, hh])
      simp [hs1, hs2]
  unfold decoratorsValidateFormWrapper
  rw [hform]
  rfl

/-- Witness for C6: a JSON content type with form fields present and a
schema that would accept them is still rejected with 415. -/
theorem c6_form_content_type_witness :
    decoratorsValidateFormWrapper
        ⟨[], [], [("a", Val.str "x")], true, false, some "application/json",
         .ok (.obj [])⟩
        [⟨"a", Ty.tStr, true, Val.none⟩]
      = ([], .error (.abort 415 "Unsupported Media Type")) :=
  c6_form_content_type _ _ (by decide) (by decide)

/-! ## C7 and C4 — orchestration-level properties -/

/-- The path step never traces more than the path surface. -/
theorem stepPath_trace (r : Request) (pm : Option Schema) (fa : List (String × Ty)) :
    (stepPath r pm fa).1 = [] ∨ (stepPath r pm fa).1 = [Surface.path] := by
  unfold stepPath
  split <;> simp

/-- The query step never traces more than the query surface. -/
theorem stepQuery_trace (r : Request) (qm : Option Schema) :
    (stepQuery r qm).1 = [] ∨ (stepQuery r qm).1 = [Surface.query] := by
  cases qm <;> simp [stepQuery]

/-- Exact shape of the body/form step: a declared body model always takes
the body branch (whose successful form component is absent), the form
branch requires an undeclared body model and a declared form model, and
the remaining cases trace nothing and have an undeclared body model only
when no body model was given. -/
theorem stepBodyForm_cases (r : Request) (bm fm : Option Schema) :
    ((stepBodyForm r bm fm).1 = [Surface.body] ∧ bm.isSome = true ∧
        ∀ b f, (stepBodyForm r bm fm).2 = .ok (b, f) → f = Option.none) ∨
    ((stepBodyForm r bm fm).1 = [Surface.form] ∧ bm = Option.none ∧ fm.isSome = true) ∨
    ((stepBodyForm r bm fm).1 = [] ∧ bm = Option.none) := by
  cases bm with
  | some s =>
    left
    refine ⟨rfl, rfl, ?_⟩
    intro b f hbf
    have hred : (stepBodyForm r (some s) fm).2 = (match r.jsonBody with
        | Except.error e => (Except.error e : Except Failure (Option DictV × Option DictV))
        | Except.ok request_body =>
          match bodyValidator2Validate r (some s) request_body with
          | Except.error e => Except.error e
          | Except.ok b => Except.ok (b, Option.none)) := rfl
    rw [hred] at hbf
    cases hj : r.jsonBody with
    | error e => rw [hj] at hbf; cases hbf
    | ok j =>
      rw [hj] at hbf
      have hbf2 : (match bodyValidator2Validate r (some s) j with
          | Except.error e => (Except.error e : Except Failure (Option DictV × Option DictV))
          | Except.ok b => Except.ok (b, Option.none)) = Except.ok (b, f) := hbf
      cases hv : bodyValidator2Validate r (some s) j with
      | error e => rw [hv] at hbf2; cases hbf2
      | ok bv =>
        rw [hv] at hbf2
        cases hbf2
        rfl
  | none =>
    cases fm with
    | some s =>
      unfold stepBodyForm
      by_cases hform : request_is_form r
      · right; left
        simp [hform]
      · right; right
        simp [hform]
    | none => right; right; exact ⟨rfl, rfl⟩

/-- C7.  Requesting path validation (the `validate_path` wrapper) on a
request binding no path parameters raises the `ValueError` precondition
violation, which is a different failure constructor from both a 4xx abort
and a field validation failure; the general orchestration wrapper on the
same request never runs the path surface and delivers an absent
`path_params` with no error from that surface. -/
theorem c7_path_precondition (r : Request) (path_model : Option Schema)
    (fun_args : List (String × Ty)) (h : r.viewArgs = []) :
    decoratorsValidatePathWrapper r path_model fun_args
        = .error (.valueError "Expected path parameters but none were found.") ∧
    (∀ code descr, Failure.valueError "Expected path parameters but none were found."
        ≠ Failure.abort code descr) ∧
    (∀ loc msg, Failure.valueError "Expected path parameters but none were found."
        ≠ Failure.validationError loc msg) ∧
    (∀ body_model query_model form_model,
      Surface.path ∉ (decoratorsValidateWrapper r body_model query_model path_model
          form_model fun_args).1 ∧
      ∀ out, (decoratorsValidateWrapper r body_model query_model path_model
          form_model fun_args).2 = .ok out → out.path_params = Option.none) := by
  have hempty : r.viewArgs.isEmpty = true := by rw [h]; rfl
  refine ⟨?_, ?_, ?_, ?_⟩
  · unfold decoratorsValidatePathWrapper
    rw [hempty]
    rfl
  · intro code descr hc; cases hc
  · intro loc msg hc; cases hc
  · intro body_model query_model form_model
    have hsp : stepPath r path_model fun_args = ([], .ok Option.none) := by
      unfold stepPath
      rw [hempty]
      rfl
    unfold decoratorsValidateWrapper
    rw [hsp]
    rcases hq : stepQuery r query_model with ⟨t2, qr⟩
    have ht2 : t2 = [] ∨ t2 = [Surface.query] := by
      have := stepQuery_trace r query_model
      rw [hq] at this
      exact this
    have ht2path : Surface.path ∉ t2 := by
      rcases ht2 with h2 | h2 <;> rw [h2] <;> simp
    cases qr with
    | error e =>
      simp only []
      constructor
      · simpa using ht2path
      · intro out hout; cases hout
    | ok q =>
      rcases hbf : stepBodyForm r body_model form_model with ⟨t3, bfr⟩
      have ht3 : t3 = [Surface.body] ∨ t3 = [Surface.form] ∨ t3 = [] := by
        have := stepBodyForm_cases r body_model form_model
        rw [hbf] at this
        rcases this with ⟨h3, _⟩ | ⟨h3, _⟩ | ⟨h3, _⟩
        · exact Or.inl h3
        · exact Or.inr (Or.inl h3)
        · exact Or.inr (Or.inr h3)
      have ht3path : Surface.path ∉ t3 := by
        rcases ht3 with h3 | h3 | h3 <;> rw [h3] <;> simp
      cases bfr with
      | error e =>
        simp only []
        constructor
        · simp only [List.nil_append, List.mem_append]
          rintro (hc | hc)
          · exact ht2path hc
          · exact ht3path hc
        · intro out hout; cases hout
      | ok bf =>
        obtain ⟨b, f⟩ := bf
        simp only []
        constructor
        · simp only [List.nil_append, List.mem_append]
          rintro (hc | hc)
          · exact ht2path hc
          · exact ht3path hc
        · intro out hout
          cases hout
          rfl

/-- Witness for C7: a request with no bound path values. -/
theorem c7_path_precondition_witness :
    decoratorsValidatePathWrapper
        ⟨[], [], [], false, false, Option.none, .ok Val.none⟩ Option.none []
      = .error (.valueError "Expected path parameters but none were found.") :=
  (c7_path_precondition ⟨[], [], [], false, false, Option.none, .ok Val.none⟩
    Option.none [] rfl).1

/-- C4 (amended).  In the `decorators.validate` wrapper, body and form
validation are mutually exclusive: a declared body schema keeps the form
surface out of the trace and out of the delivered result (and on success
the body surface did run), and the form surface runs only when no body
schema is declared and a form schema is. -/
theorem c4_body_form_exclusive (r : Request)
    (body_model query_model path_model form_model : Option Schema)
    (fun_args : List (String × Ty)) (tr : List Surface) (res : Except Failure VOut)
    (h : decoratorsValidateWrapper r body_model query_model path_model form_model fun_args
        = (tr, res)) :
    (body_model.isSome = true → Surface.form ∉ tr ∧
        ∀ out, res = .ok out → Surface.body ∈ tr ∧ out.form = Option.none) ∧
    (Surface.form ∈ tr → body_model = Option.none ∧ form_model.isSome = true) := by
  rcases hp : stepPath r path_model fun_args with ⟨t1, pr⟩
  have ht1 : t1 = [] ∨ t1 = [Surface.path] := by
    have hx := stepPath_trace r path_model fun_args
    rw [hp] at hx
    exact hx
  have ht1f : Surface.form ∉ t1 := by rcases ht1 with h1 | h1 <;> rw [h1] <;> simp
  unfold decoratorsValidateWrapper at h
  rw [hp] at h
  cases pr with
  | error e =>
    cases h
    constructor
    · intro _
      refine ⟨ht1f, ?_⟩
      intro out hout
      cases hout
    · intro hform
      exact absurd hform ht1f
  | ok p =>
    rcases hq : stepQuery r query_model with ⟨t2, qr⟩
    rw [hq] at h
    have ht2 : t2 = [] ∨ t2 = [Surface.query] := by
      have hx := stepQuery_trace r query_model
      rw [hq] at hx
      exact hx
    have ht2f : Surface.form ∉ t2 := by rcases ht2 with h2 | h2 <;> rw [h2] <;> simp
    cases qr with
    | error e =>
      cases h
      constructor
      · intro _
        constructor
        · simp only [List.mem_append]
          rintro (hc | hc)
          · exact ht1f hc
          · exact ht2f hc
        · intro out hout
          cases hout
      · simp only [List.mem_append]
        rintro (hc | hc)
        · exact absurd hc ht1f
        · exact absurd hc ht2f
    | ok q =>
      rcases hbf : stepBodyForm r body_model form_model with ⟨t3, bfr⟩
      rw [hbf] at h
      have hc := stepBodyForm_cases r body_model form_model
      rw [hbf] at hc
      have hc2 : (t3 = [Surface.body] ∧ body_model.isSome = true ∧
            ∀ b f, bfr = .ok (b, f) → f = Option.none) ∨
          (t3 = [Surface.form] ∧ body_model = Option.none ∧ form_model.isSome = true) ∨
          (t3 = [] ∧ body_model = Option.none) := hc
      clear hc
      cases bfr with
      | error e =>
        cases h
        rcases hc2 with ⟨h3, hbsome, _⟩ | ⟨h3, hbnone, hfsome⟩ | ⟨h3, hbnone⟩
        · constructor
          · intro _
            constructor
            · rw [h3]
              simp only [List.mem_append, List.mem_singleton]
              rintro ((hc1 | hc1) | hc1)
              · exact ht1f hc1
              · exact ht2f hc1
              · cases hc1
            · intro out hout
              cases hout
          · rw [h3]
            simp only [List.mem_append, List.mem_singleton]
            rintro ((hc1 | hc1) | hc1)
            · exact absurd hc1 ht1f
            · exact absurd hc1 ht2f
            · cases hc1
        · constructor
          · intro hb
            rw [hbnone] at hb
            simp at hb
          · intro _
            exact ⟨hbnone, hfsome⟩
        · constructor
          · intro hb
            rw [hbnone] at hb
            simp at hb
          · rw [h3]
            simp only [List.mem_append, List.not_mem_nil]
            rintro ((hc1 | hc1) | hc1)
            · exact absurd hc1 ht1f
            · exact absurd hc1 ht2f
            · exact hc1.elim
      | ok bf =>
        obtain ⟨bb, ff⟩ := bf
        cases h
        rcases hc2 with ⟨h3, hbsome, hok⟩ | ⟨h3, hbnone, hfsome⟩ | ⟨h3, hbnone⟩
        · constructor
          · intro _
            constructor
            · rw [h3]
              simp only [List.mem_append, List.mem_singleton]
              rintro ((hc1 | hc1) | hc1)
              · exact ht1f hc1
              · exact ht2f hc1
              · cases hc1
            · intro out hout
              cases hout
              constructor
              · rw [h3]
                simp
              · exact hok bb ff rfl
          · rw [h3]
            simp only [List.mem_append, List.mem_singleton]
            rintro ((hc1 | hc1) | hc1)
            · exact absurd hc1 ht1f
            · exact absurd hc1 ht2f
            · cases hc1
        · constructor
          · intro hb
            rw [hbnone] at hb
            simp at hb
          · intro _
            exact ⟨hbnone, hfsome⟩
        · constructor
          · intro hb
            rw [hbnone] at hb
            simp at hb
          · rw [h3]
            simp only [List.mem_append, List.not_mem_nil]
            rintro ((hc1 | hc1) | hc1)
            · exact absurd hc1 ht1f
            · exact absurd hc1 ht2f
            · exact hc1.elim

/-- Witness for C4: a JSON request with a declared body schema and no form
schema runs exactly the body surface and leaves the form result absent. -/
theorem c4_body_form_exclusive_witness :
    Surface.form ∉ [Surface.body] ∧
    VOut.form ⟨Option.none, Option.none, some [("b", Val.int 1)], Option.none⟩
        = Option.none := by
  have hh := (c4_body_form_exclusive
      ⟨[], [], [], true, false, some "application/json", .ok (.obj [("b", Val.int 1)])⟩
      (some [⟨"b", Ty.tInt, true, Val.none⟩]) Option.none Option.none Option.none []
      [Surface.body]
      (.ok ⟨Option.none, Option.none, some [("b", Val.int 1)], Option.none⟩) rfl).1 rfl
  exact ⟨hh.1, (hh.2 _ rfl).2⟩

/-- Counterexample for C4 as frozen: the legacy orchestration wrapper in
`decoration.py` is an invocation of the orchestration decorator in which a
body schema is declared, yet body validation is skipped (the request
carries form data) and form validation runs and populates the form result
from the declared form schema. -/
theorem c4_legacy_wrapper_counterexample :
    decorationValidateWrapper
        ⟨[], [], [("a", Val.str "x")], true, false,
         some "application/x-www-form-urlencoded", .ok (.obj [("b", Val.int 1)])⟩
        (some [⟨"b", Ty.tInt, true, Val.none⟩]) Option.none Option.none
        (some [⟨"a", Ty.tStr, true, Val.none⟩]) []
      = .ok ⟨Option.none, Option.none, Option.none, some [("a", Val.str "x")]⟩ := rfl

/-! ## C1 — path validation from the handler declaration (corrected) -/

/-- Pointwise relation between a raw path binding and its validated value:
same name; a declared hint means the value was coerced to that hint; no
hint means the router-provided value is kept unchanged. -/
def entryCoerced (function_arg_types : List (String × Ty)) (inp out : String × Val) : Prop :=
  out.1 = inp.1 ∧
  (∀ t, hintLookup function_arg_types inp.1 = some t → coerce t inp.2 = some out.2) ∧
  (hintLookup function_arg_types inp.1 = Option.none → out.2 = inp.2)

/-- Pointwise relation between a raw path binding and the corresponding
field of the synthesized model: same name, and the field type equals the
declared hint whenever one exists. -/
def fieldMatchesHint (function_arg_types : List (String × Ty)) (inp : String × Val)
    (fld : Field) : Prop :=
  fld.name = inp.1 ∧ ∀ t, hintLookup function_arg_types inp.1 = some t → fld.ty = t

/-- A successful `validate_value` is exactly a successful coercion. -/
theorem validate_value_ok {value : Val} {t : Ty} {w : Val}
    (h : validate_value value t = .ok w) : coerce t value = some w := by
  unfold validate_value at h
  cases hc : coerce t value with
  | none => rw [hc] at h; exact Except.noConfusion h
  | some w' =>
    rw [hc] at h
    have h2 : (Except.ok w' : Except Failure Val) = .ok w := h
    cases h2
    rfl

/-- A failing `validate_value` is exactly a failed coercion, and the
failure it raises carries no field name. -/
theorem validate_value_error {value : Val} {t : Ty} {e : Failure}
    (h : validate_value value t = .error e) :
    coerce t value = Option.none ∧ e = .validationError Option.none "coercion_failure" := by
  unfold validate_value at h
  cases hc : coerce t value with
  | some w =>
    rw [hc] at h
    exact Except.noConfusion (show (Except.ok w : Except Failure Val) = .error e from h)
  | none =>
    rw [hc] at h
    have h2 : (Except.error (Failure.validationError Option.none "coercion_failure")
        : Except Failure Val) = .error e := h
    cases h2
    exact ⟨rfl, rfl⟩

/-- Successful per-field path validation coerces every binding against its
target type, independently and in order. -/
theorem validate_path_params_ok (pp : DictV) (fa : List (String × Ty)) (out : DictV)
    (h : validate_path_params pp fa = .ok out) :
    List.Forall₂ (entryCoerced fa) pp out := by
  induction pp generalizing out with
  | nil =>
    cases h
    exact List.Forall₂.nil
  | cons hd tl ih =>
    obtain ⟨arg, value⟩ := hd
    unfold validate_path_params at h
    cases hv : validate_value value (get_target_type arg value fa) with
    | error e => rw [hv] at h; exact Except.noConfusion h
    | ok w =>
      rw [hv] at h
      cases hr : validate_path_params tl fa with
      | error e => rw [hr] at h; exact Except.noConfusion h
      | ok r =>
        rw [hr] at h
        cases h
        refine List.Forall₂.cons ?_ (ih r hr)
        refine ⟨rfl, ?_, ?_⟩
        · intro t ht
          have hgt : get_target_type arg value fa = t := by
            unfold get_target_type
            rw [ht]
            rfl
          rw [hgt] at hv
          exact validate_value_ok hv
        · intro ht
          have hgt : get_target_type arg value fa = typeOf value := by
            unfold get_target_type
            rw [ht]
            rfl
          rw [hgt] at hv
          have hcz := validate_value_ok hv
          rw [coerce_typeOf_self] at hcz
          injection hcz with h4
          exact h4.symm

/-- A failing per-field path validation propagates the raise of
`TypeAdapter(target_type).validate_python(value)`, a validation failure
built from the value and the target type only — it carries no field
name. -/
theorem validate_path_params_error (pp : DictV) (fa : List (String × Ty)) (e : Failure)
    (h : validate_path_params pp fa = .error e) :
    ∃ msg, e = .validationError Option.none msg := by
  induction pp with
  | nil => exact Except.noConfusion h
  | cons hd tl ih =>
    obtain ⟨arg, value⟩ := hd
    unfold validate_path_params at h
    cases hv : validate_value value (get_target_type arg value fa) with
    | error e' =>
      rw [hv] at h
      have h2 : (Except.error e' : Except Failure DictV) = .error e := h
      cases h2
      exact ⟨_, (validate_value_error hv).2⟩
    | ok w =>
      rw [hv] at h
      cases hr : validate_path_params tl fa with
      | error e2 =>
        rw [hr] at h
        have h2 : (Except.error e2 : Except Failure DictV) = .error e := h
        cases h2
        exact ih hr
      | ok r => rw [hr] at h; exact Except.noConfusion h

/-- The validated mapping binds exactly the names of the raw mapping. -/
theorem forall₂_entry_fst {fa : List (String × Ty)} {pp out : DictV}
    (h : List.Forall₂ (entryCoerced fa) pp out) :
    out.map Prod.fst = pp.map Prod.fst := by
  induction h with
  | nil => rfl
  | cons hrel _ ih => simp [ih, hrel.1]

/-- In a dict with distinct keys, every entry is found by its own key. -/
theorem dictLookup_self :
    ∀ (d : DictV), (d.map Prod.fst).Nodup → ∀ p ∈ d, dictLookup d p.1 = some p.2 := by
  intro d
  induction d with
  | nil =>
    intro _ p hp
    cases hp
  | cons hd tl ih =>
    obtain ⟨a, v⟩ := hd
    intro hnd p hp
    simp only [List.map_cons, List.nodup_cons] at hnd
    cases hp with
    | head =>
      show dictLookup ((a, v) :: tl) a = some v
      unfold dictLookup
      rw [if_pos rfl]
    | tail _ hq =>
      have hne : a ≠ p.1 := fun hcon => hnd.1 (hcon ▸ List.mem_map_of_mem Prod.fst hq)
      show dictLookup ((a, v) :: tl) p.1 = some p.2
      unfold dictLookup
      rw [if_neg hne]
      exact ih hnd.2 p hq

/-- `model_validate` of a mapping against the model synthesized from that
very mapping succeeds and returns the mapping: every field is found, and
coercion to its own runtime type is the identity. -/
theorem validateFields_dynamic (d0 : DictV) :
    ∀ (d : DictV), (∀ p ∈ d, dictLookup d0 p.1 = some p.2) →
      validateFields d0 (create_dynamic_model d) = .ok d := by
  intro d
  induction d with
  | nil => intro _; rfl
  | cons hd tl ih =>
    obtain ⟨a, v⟩ := hd
    intro hsub
    have h1 : dictLookup d0 a = some v := hsub (a, v) (List.mem_cons_self _ _)
    have h2 := ih (fun p hp => hsub p (List.mem_cons_of_mem _ hp))
    show validateFields d0 (⟨a, typeOf v, true, Val.none⟩ :: create_dynamic_model tl)
        = .ok ((a, v) :: tl)
    unfold validateFields
    simp only [h1, coerce_typeOf_self, h2, Except.map]

/-- C1 (amended).  With no explicit path schema, every bound value is
independently coerced to the declared hint for its name; a name with no
hint keeps the router-provided value unchanged; a failed coercion raises a
field validation failure built at the `TypeAdapter` call without the field
name attached; and on success the per-field results are wrapped in a
synthesized model whose field types equal the declared hints. -/
theorem c1_path_declaration_validation (pp : DictV) (fa : List (String × Ty))
    (hnd : (pp.map Prod.fst).Nodup) :
    (∀ out, validate_path_params pp fa = .ok out → List.Forall₂ (entryCoerced fa) pp out) ∧
    (∀ e, validate_path_params pp fa = .error e →
        ∃ msg, e = .validationError Option.none msg) ∧
    (∀ mdl inst, validate_from_declaration pp fa Option.none = .ok (mdl, inst) →
        validate_path_params pp fa = .ok inst ∧
        List.Forall₂ (fieldMatchesHint fa) pp mdl) := by
  refine ⟨fun out h => validate_path_params_ok pp fa out h,
    fun e h => validate_path_params_error pp fa e h, ?_⟩
  intro mdl inst h
  unfold validate_from_declaration at h
  cases hv : validate_path_params pp fa with
  | error e => rw [hv] at h; exact Except.noConfusion h
  | ok validated =>
    rw [hv] at h
    have hF := validate_path_params_ok pp fa validated hv
    have hnd' : (validated.map Prod.fst).Nodup := by
      rw [forall₂_entry_fst hF]
      exact hnd
    have hself := validateFields_dynamic validated validated (dictLookup_self validated hnd')
    simp only [Option.getD_none] at h
    rw [hself] at h
    have h3 : (Except.ok (create_dynamic_model validated, validated)
        : Except Failure (Schema × DictV)) = Except.ok (mdl, inst) := h
    cases h3
    refine ⟨rfl, ?_⟩
    unfold create_dynamic_model
    rw [List.forall₂_map_right_iff]
    refine hF.imp ?_
    intro a b hab
    exact ⟨hab.1, fun t ht => typeOf_coerce (hab.2.1 t ht)⟩

/-- Witness for C1 at the spec's example: raw `"42"` with hint `int`
validates to the integer 42 with the expected pointwise relation. -/
theorem c1_path_declaration_validation_witness :
    validate_path_params [("id", Val.str "42")] [("id", Ty.tInt)]
        = .ok [("id", Val.int 42)] ∧
    List.Forall₂ (entryCoerced [("id", Ty.tInt)])
        [("id", Val.str "42")] [("id", Val.int 42)] := by
  have h1 : validate_path_params [("id", Val.str "42")] [("id", Ty.tInt)]
      = .ok [("id", Val.int 42)] := rfl
  exact ⟨h1, (c1_path_declaration_validation [("id", Val.str "42")] [("id", Ty.tInt)]
    (by simp)).1 _ h1⟩

/-- Counterexample for C1 as frozen: the raw value `"abc"` against hint
`int` fails, but the failure raised at the coercion site carries no field
name — it is not a failure naming field `id`. -/
theorem c1_path_failure_counterexample :
    validate_path_params [("id", Val.str "abc")] [("id", Ty.tInt)]
        = .error (.validationError Option.none "coercion_failure") ∧
    Failure.validationError Option.none "coercion_failure"
        ≠ Failure.validationError (some "id") "coercion_failure" := by
  constructor
  · rfl
  · intro hc
    injection hc with h1 _
    exact Option.noConfusion h1

/-! ## C9 — validation never mutates the raw mapping -/

/-- Reading back the address just written yields the written dict. -/
theorem memRead_memWrite_self (mem : List (Nat × DictV)) (b : Nat) (nd : DictV) :
    memRead (memWrite mem b nd) b = nd := by
  induction mem with
  | nil =>
    show memRead [(b, nd)] b = nd
    unfold memRead
    rw [if_pos rfl]
  | cons hd tl ih =>
    obtain ⟨x, d⟩ := hd
    by_cases hxb : x = b
    · subst hxb
      unfold memWrite
      rw [if_pos rfl]
      unfold memRead
      rw [if_pos rfl]
    · show memRead (memWrite ((x, d) :: tl) b nd) b = nd
      unfold memWrite
      rw [if_neg hxb]
      unfold memRead
      rw [if_neg hxb]
      exact ih

/-- Writing one address leaves every other address unchanged. -/
theorem memRead_memWrite_ne (mem : List (Nat × DictV)) (a b : Nat) (nd : DictV)
    (h : a ≠ b) : memRead (memWrite mem b nd) a = memRead mem a := by
  induction mem with
  | nil =>
    show memRead [(b, nd)] a = memRead [] a
    unfold memRead
    rw [if_neg (fun hh => h hh.symm)]
    rfl
  | cons hd tl ih =>
    obtain ⟨x, d⟩ := hd
    by_cases hxb : x = b
    · subst hxb
      show memRead (memWrite ((x, d) :: tl) x nd) a = memRead ((x, d) :: tl) a
      unfold memWrite
      rw [if_pos rfl]
      have hxa : ¬ (x = a) := fun hh => h hh.symm
      unfold memRead
      rw [if_neg hxa, if_neg hxa]
    · show memRead (memWrite ((x, d) :: tl) b nd) a = memRead ((x, d) :: tl) a
      unfold memWrite
      rw [if_neg hxb]
      by_cases hxa : x = a
      · subst hxa
        unfold memRead
        rw [if_pos rfl, if_pos rfl]
      · unfold memRead
        rw [if_neg hxa, if_neg hxa]
        exact ih

/-- The loop of `validate_path_params` writes only to the output dict:
every other address reads unchanged afterwards. -/
theorem vppLoop_frame (fa : List (String × Ty)) (outAddr : Nat) :
    ∀ (entries : List (String × Val)) (σ : Store) (b : Nat), b ≠ outAddr →
      ((vppLoop fa outAddr entries σ).2).read b = σ.read b := by
  intro entries
  induction entries with
  | nil =>
    intro σ b _
    rfl
  | cons hd tl ih =>
    obtain ⟨arg, value⟩ := hd
    intro σ b hb
    unfold vppLoop
    cases hv : validate_value value (get_target_type arg value fa) with
    | ok w =>
      simp only [hv]
      rw [ih (σ.write outAddr (dictSet (σ.read outAddr) arg w)) b hb]
      show memRead (memWrite σ.mem outAddr (dictSet (σ.read outAddr) arg w)) b = memRead σ.mem b
      exact memRead_memWrite_ne _ _ _ _ hb
    | error e =>
      simp only [hv]

/-- Assigning a key not yet present appends it at the end. -/
theorem dictSet_fresh (d : DictV) (k : String) (v : Val) (h : k ∉ d.map Prod.fst) :
    dictSet d k v = d ++ [(k, v)] := by
  induction d with
  | nil => rfl
  | cons hd tl ih =>
    obtain ⟨a, w⟩ := hd
    simp only [List.map_cons, List.mem_cons] at h
    push_neg at h
    show dictSet ((a, w) :: tl) k v = (a, w) :: tl ++ [(k, v)]
    unfold dictSet
    rw [if_neg (fun hh => h.1 hh.symm)]
    rw [ih h.2]
    rfl

/-- The loop of `validate_path_params`, run with the output dict holding
`acc`: it refines the pure `validate_path_params` on the remaining
entries, accumulating the validated pairs at the end of the output
dict. -/
theorem vppLoop_spec (fa : List (String × Ty)) (outAddr : Nat) :
    ∀ (entries : List (String × Val)) (σ : Store) (acc : DictV),
      σ.read outAddr = acc →
      (∀ k, k ∈ entries.map Prod.fst → k ∉ acc.map Prod.fst) →
      (entries.map Prod.fst).Nodup →
      (∀ d, validate_path_params entries fa = .ok d →
          (vppLoop fa outAddr entries σ).1 = .ok () ∧
          ((vppLoop fa outAddr entries σ).2).read outAddr = acc ++ d) ∧
      (∀ e, validate_path_params entries fa = .error e →
          (vppLoop fa outAddr entries σ).1 = .error e) := by
  intro entries
  induction entries with
  | nil =>
    intro σ acc hacc _ _
    constructor
    · intro d hd
      have h2 : (Except.ok [] : Except Failure DictV) = .ok d := hd
      cases h2
      refine ⟨rfl, ?_⟩
      rw [List.append_nil]
      exact hacc
    · intro e he
      exact Except.noConfusion he
  | cons hd tl ih =>
    obtain ⟨arg, value⟩ := hd
    intro σ acc hacc hdisj hnd
    simp only [List.map_cons, List.nodup_cons] at hnd
    cases hv : validate_value value (get_target_type arg value fa) with
    | error e' =>
      constructor
      · intro d hd
        unfold validate_path_params at hd
        rw [hv] at hd
        exact Except.noConfusion (show (Except.error e' : Except Failure DictV) = .ok d from hd)
      · intro e he
        unfold validate_path_params at he
        rw [hv] at he
        have h2 : (Except.error e' : Except Failure DictV) = .error e := he
        cases h2
        show (vppLoop fa outAddr ((arg, value) :: tl) σ).1 = .error e'
        unfold vppLoop
        simp only [hv]
    | ok w =>
      have hfresh : arg ∉ acc.map Prod.fst := hdisj arg (by simp)
      have hacc' : (σ.write outAddr (dictSet (σ.read outAddr) arg w)).read outAddr
          = acc ++ [(arg, w)] := by
        show memRead (memWrite σ.mem outAddr (dictSet (σ.read outAddr) arg w)) outAddr
            = acc ++ [(arg, w)]
        rw [memRead_memWrite_self]
        rw [hacc]
        exact dictSet_fresh acc arg w hfresh
      have hdisj' : ∀ k, k ∈ tl.map Prod.fst → k ∉ (acc ++ [(arg, w)]).map Prod.fst := by
        intro k hk hcon
        rw [List.map_append] at hcon
        rcases List.mem_append.mp hcon with hc | hc
        · exact hdisj k (by simp [hk]) hc
        · have hka : k = arg := by simpa using hc
          exact hnd.1 (hka ▸ hk)
      obtain ⟨ihok, iherr⟩ :=
        ih (σ.write outAddr (dictSet (σ.read outAddr) arg w)) (acc ++ [(arg, w)])
          hacc' hdisj' hnd.2
      constructor
      · intro d hd
        unfold validate_path_params at hd
        rw [hv] at hd
        cases hr : validate_path_params tl fa with
        | error e2 =>
          rw [hr] at hd
          exact Except.noConfusion (show (Except.error e2 : Except Failure DictV) = .ok d from hd)
        | ok r =>
          rw [hr] at hd
          have h2 : (Except.ok ((arg, w) :: r) : Except Failure DictV) = .ok d := hd
          cases h2
          obtain ⟨l1, l2⟩ := ihok r hr
          constructor
          · show (vppLoop fa outAddr ((arg, value) :: tl) σ).1 = .ok ()
            unfold vppLoop
            simp only [hv]
            exact l1
          · show ((vppLoop fa outAddr ((arg, value) :: tl) σ).2).read outAddr
                = acc ++ (arg, w) :: r
            unfold vppLoop
            simp only [hv]
            rw [l2, List.append_assoc]
            rfl
      · intro e he
        unfold validate_path_params at he
        rw [hv] at he
        cases hr : validate_path_params tl fa with
        | ok r =>
          rw [hr] at he
          exact Except.noConfusion (show (Except.ok ((arg, w) :: r) : Except Failure DictV)
            = .error e from he)
        | error e2 =>
          rw [hr] at he
          have h2 : (Except.error e2 : Except Failure DictV) = .error e := he
          cases h2
          unfold vppLoop
          simp only [hv]
          exact iherr _ hr

/-- C9.  Played against the dict store, `validate_path_params` and
`as_model` leave the raw mapping at its address unchanged — whether they
succeed or raise — and a successful result is a newly allocated dict
(a fresh address, distinct from the input's) holding exactly the value of
the corresponding pure function of the raw data and the schema. -/
theorem c9_no_mutation (σ : Store) (a : Nat) (fa : List (String × Ty))
    (model : Option Schema) (ha : a < σ.next)
    (hnd : ((σ.read a).map Prod.fst).Nodup) :
    ((validate_path_params_heap σ a fa).2).read a = σ.read a ∧
    ((as_model_heap σ a model).2).read a = σ.read a ∧
    (∀ out, (validate_path_params_heap σ a fa).1 = .ok out → out ≠ a ∧
        ∃ d, validate_path_params (σ.read a) fa = .ok d ∧
          ((validate_path_params_heap σ a fa).2).read out = d) ∧
    (∀ e, (validate_path_params_heap σ a fa).1 = .error e →
        validate_path_params (σ.read a) fa = .error e) ∧
    (∀ addr, (as_model_heap σ a model).1 = .ok (some addr) → addr ≠ a ∧
        ∃ inst, as_model (σ.read a) model = .ok (some inst) ∧
          ((as_model_heap σ a model).2).read addr = inst) := by
  have hane : ¬ (σ.next = a) := fun hh => absurd hh.symm (Nat.ne_of_lt ha)
  have hreadFresh : ∀ d0 : DictV,
      Store.read ⟨(σ.next, d0) :: σ.mem, σ.next + 1⟩ a = σ.read a := by
    intro d0
    show (if σ.next = a then d0 else memRead σ.mem a) = memRead σ.mem a
    rw [if_neg hane]
  have hread1 : Store.read ⟨(σ.next, []) :: σ.mem, σ.next + 1⟩ a = σ.read a :=
    hreadFresh []
  have hout1 : Store.read ⟨(σ.next, []) :: σ.mem, σ.next + 1⟩ σ.next = [] := by
    show (if σ.next = σ.next then ([] : DictV) else memRead σ.mem σ.next) = []
    rw [if_pos rfl]
  have hspec := vppLoop_spec fa σ.next (σ.read a) ⟨(σ.next, []) :: σ.mem, σ.next + 1⟩ []
      hout1 (fun k _ hk => by simp at hk) hnd
  have hframe := vppLoop_frame fa σ.next (σ.read a)
      ⟨(σ.next, []) :: σ.mem, σ.next + 1⟩ a (fun hh => hane hh.symm)
  have hheap : validate_path_params_heap σ a fa =
      (match vppLoop fa σ.next (σ.read a) ⟨(σ.next, []) :: σ.mem, σ.next + 1⟩ with
       | (.ok _, σ2) => (Except.ok σ.next, σ2)
       | (.error e, σ2) => (Except.error e, σ2)) := rfl
  rcases hloop : vppLoop fa σ.next (σ.read a) ⟨(σ.next, []) :: σ.mem, σ.next + 1⟩
    with ⟨res, σ2⟩
  rw [hloop] at hheap hframe hspec
  have hframe2 : σ2.read a = σ.read a := by
    have hx : ((res, σ2).2).read a = Store.read ⟨(σ.next, []) :: σ.mem, σ.next + 1⟩ a :=
      hframe
    rw [hread1] at hx
    exact hx
  have hspec1 : ∀ d, validate_path_params (σ.read a) fa = .ok d →
      res = .ok () ∧ σ2.read σ.next = [] ++ d := hspec.1
  have hspec2 : ∀ e, validate_path_params (σ.read a) fa = .error e →
      res = .error e := hspec.2
  have hmodel2 : ((as_model_heap σ a model).2).read a = σ.read a ∧
      (∀ addr, (as_model_heap σ a model).1 = .ok (some addr) → addr ≠ a ∧
        ∃ inst, as_model (σ.read a) model = .ok (some inst) ∧
          ((as_model_heap σ a model).2).read addr = inst) := by
    cases model with
    | none =>
      constructor
      · rfl
      · intro addr haddr
        have h2 : (Except.ok (Option.none : Option Nat)
            : Except Failure (Option Nat)) = .ok (some addr) := haddr
        injection h2 with h3
        exact Option.noConfusion h3
    | some flds =>
      cases hvf : validateFields (σ.read a) flds with
      | ok inst =>
        have hh : as_model_heap σ a (some flds) =
            (match validateFields (σ.read a) flds with
             | Except.ok inst =>
               ((Except.ok (some σ.next) : Except Failure (Option Nat)),
                (⟨(σ.next, inst) :: σ.mem, σ.next + 1⟩ : Store))
             | Except.error e => (Except.error e, σ)) := rfl
        have ham : as_model_heap σ a (some flds)
            = (.ok (some σ.next), ⟨(σ.next, inst) :: σ.mem, σ.next + 1⟩) := by
          rw [hh, hvf]
        have hreadA : Store.read ⟨(σ.next, inst) :: σ.mem, σ.next + 1⟩ a = σ.read a :=
          hreadFresh inst
        constructor
        · rw [ham]
          exact hreadA
        · intro addr haddr
          rw [ham] at haddr
          have h2 : (Except.ok (some σ.next) : Except Failure (Option Nat))
              = .ok (some addr) := haddr
          cases h2
          refine ⟨fun hh => hane hh, inst, ?_, ?_⟩
          · show (validateFields (σ.read a) flds).map some = .ok (some inst)
            rw [hvf]
            rfl
          · rw [ham]
            show (if σ.next = σ.next then inst else memRead σ.mem σ.next) = inst
            rw [if_pos rfl]
      | error e1 =>
        have hh : as_model_heap σ a (some flds) =
            (match validateFields (σ.read a) flds with
             | Except.ok inst =>
               ((Except.ok (some σ.next) : Except Failure (Option Nat)),
                (⟨(σ.next, inst) :: σ.mem, σ.next + 1⟩ : Store))
             | Except.error e => (Except.error e, σ)) := rfl
        have ham : as_model_heap σ a (some flds) = (.error e1, σ) := by
          rw [hh, hvf]
        constructor
        · rw [ham]
        · intro addr haddr
          rw [ham] at haddr
          exact Except.noConfusion
            (show (Except.error e1 : Except Failure (Option Nat)) = .ok (some addr) from haddr)
  cases res with
  | ok u =>
    have hhp : validate_path_params_heap σ a fa = (Except.ok σ.next, σ2) := hheap
    refine ⟨?_, hmodel2.1, ?_, ?_, hmodel2.2⟩
    · rw [hhp]
      exact hframe2
    · intro out hout
      rw [hhp] at hout
      have h2 : (Except.ok σ.next : Except Failure Nat) = .ok out := hout
      cases h2
      refine ⟨fun hh => hane hh, ?_⟩
      cases hpure : validate_path_params (σ.read a) fa with
      | error e => exact Except.noConfusion (hspec2 e hpure)
      | ok d =>
        refine ⟨d, rfl, ?_⟩
        rw [hhp]
        have h3 := (hspec1 d hpure).2
        rw [List.nil_append] at h3
        exact h3
    · intro e he
      rw [hhp] at he
      exact Except.noConfusion (show (Except.ok σ.next : Except Failure Nat) = .error e from he)
  | error e0 =>
    have hhp : validate_path_params_heap σ a fa = (Except.error e0, σ2) := hheap
    refine ⟨?_, hmodel2.1, ?_, ?_, hmodel2.2⟩
    · rw [hhp]
      exact hframe2
    · intro out hout
      rw [hhp] at hout
      exact Except.noConfusion (show (Except.error e0 : Except Failure Nat) = .ok out from hout)
    · intro e he
      rw [hhp] at he
      have h2 : (Except.error e0 : Except Failure Nat) = .error e := he
      cases h2
      cases hpure : validate_path_params (σ.read a) fa with
      | ok d => exact Except.noConfusion (hspec1 d hpure).1
      | error e1 =>
        have h4 := hspec2 e1 hpure
        have h5 : e0 = e1 := by injection h4
        rw [h5]

/-- Witness for C9: a store holding the raw mapping of the C1 witness at
address 0 reads back unchanged after the heap run of the path
validation. -/
theorem c9_no_mutation_witness :
    ((validate_path_params_heap ⟨[(0, [("id", Val.str "42")])], 1⟩ 0 [("id", Ty.tInt)]).2).read 0
        = Store.read ⟨[(0, [("id", Val.str "42")])], 1⟩ 0 :=
  (c9_no_mutation ⟨[(0, [("id", Val.str "42")])], 1⟩ 0 [("id", Ty.tInt)] Option.none
    (by decide) (by decide)).1

end Reqcheck
